import Mathlib

/-!
# Verification of the CADmium operation log (`src/packages/cadmium/src/oplog/mod.rs`)

This file gives a shallow embedding of the `oplog` module: the `Operation`
enum with its content hashing, `Commit`, `OpLog`, and the stateful
`EvolutionLog` operations (`new`, `append`, `checkout`, `cherry_pick`),
together with proofs of the specified properties.

The Rust code hashes with SHA-256 (the `sha2` crate).  We implement SHA-256
executably over byte lists (`List Nat`, each element < 256), so every
fingerprint in the development is the real digest the Rust code would
compute.
-/

namespace Cadmium

/-! ## SHA-256 (model of `sha2::Sha256` as used by the crate) -/

/-- The modulus 2^32; all SHA-256 word arithmetic is performed modulo this. -/
def M32 : Nat := 4294967296

/-- Right rotation of a 32-bit word. -/
def rotr (n x : Nat) : Nat := ((x >>> n) ||| (x <<< (32 - n))) % M32

/-- The 64 SHA-256 round constants. -/
def shaK : List Nat :=
  [1116352408, 1899447441, 3049323471, 3921009573, 961987163,
   1508970993, 2453635748, 2870763221, 3624381080, 310598401,
   607225278, 1426881987, 1925078388, 2162078206, 2614888103,
   3248222580, 3835390401, 4022224774, 264347078, 604807628,
   770255983, 1249150122, 1555081692, 1996064986, 2554220882,
   2821834349, 2952996808, 3210313671, 3336571891, 3584528711,
   113926993, 338241895, 666307205, 773529912, 1294757372,
   1396182291, 1695183700, 1986661051, 2177026350, 2456956037,
   2730485921, 2820302411, 3259730800, 3345764771, 3516065817,
   3600352804, 4094571909, 275423344, 430227734, 506948616,
   659060556, 883997877, 958139571, 1322822218, 1537002063,
   1747873779, 1955562222, 2024104815, 2227730452, 2361852424,
   2428436474, 2756734187, 3204031479, 3329325298]

/-- The SHA-256 initial hash value. -/
def shaH0 : List Nat :=
  [1779033703, 3144134277, 1013904242, 2773480762,
   1359893119, 2600822924, 528734635, 1541459225]

/-- Big-endian byte rendering of `n` on `k` bytes. -/
def natToBytesBE : Nat → Nat → List Nat
  | 0, _ => []
  | k + 1, n => natToBytesBE k (n >>> 8) ++ [n % 256]

/-- SHA-256 padding: append `0x80`, zero bytes to 56 mod 64, then the
bit-length on 8 big-endian bytes. -/
def padMessage (msg : List Nat) : List Nat :=
  let len := msg.length
  let zeros := (119 - (len % 64)) % 64
  msg ++ [0x80] ++ List.replicate zeros 0 ++ natToBytesBE 8 (len * 8)

/-- Group bytes into big-endian 32-bit words. -/
def bytesToWords : List Nat → List Nat
  | a :: b :: c :: d :: rest => (((a * 256 + b) * 256 + c) * 256 + d) :: bytesToWords rest
  | _ => []

/-- Group a word list into 16-word blocks (the input length is a multiple
of 16 for padded messages). -/
def toBlocks : List Nat → List (List Nat)
  | w0 :: w1 :: w2 :: w3 :: w4 :: w5 :: w6 :: w7 ::
    w8 :: w9 :: w10 :: w11 :: w12 :: w13 :: w14 :: w15 :: rest =>
      [w0, w1, w2, w3, w4, w5, w6, w7, w8, w9, w10, w11, w12, w13, w14, w15]
        :: toBlocks rest
  | _ => []

/-- One step of message-schedule extension; `ws` holds the words produced
so far, most recent first. -/
def scheduleRev : Nat → List Nat → List Nat
  | 0, ws => ws
  | k + 1, ws =>
    let w2 := ws.getD 1 0
    let w7 := ws.getD 6 0
    let w15 := ws.getD 14 0
    let w16 := ws.getD 15 0
    let s0 := (rotr 7 w15) ^^^ (rotr 18 w15) ^^^ (w15 >>> 3)
    let s1 := (rotr 17 w2) ^^^ (rotr 19 w2) ^^^ (w2 >>> 10)
    scheduleRev k (((w16 + s0 + w7 + s1) % M32) :: ws)

/-- The full 64-word message schedule of a 16-word block. -/
def fullSchedule (block : List Nat) : List Nat :=
  (scheduleRev 48 block.reverse).reverse

/-- One SHA-256 compression round, on the 8-word working state. -/
def compressStep (st : List Nat) (kw : Nat × Nat) : List Nat :=
  match st with
  | [a, b, c, d, e, f, g, h] =>
    let s1 := (rotr 6 e) ^^^ (rotr 11 e) ^^^ (rotr 25 e)
    let ch := (e &&& f) ^^^ ((M32 - 1 - e) &&& g)
    let temp1 := (h + s1 + ch + kw.1 + kw.2) % M32
    let s0 := (rotr 2 a) ^^^ (rotr 13 a) ^^^ (rotr 22 a)
    let maj := (a &&& b) ^^^ (a &&& c) ^^^ (b &&& c)
    let temp2 := (s0 + maj) % M32
    [(temp1 + temp2) % M32, a, b, c, ((d + temp1) % M32), e, f, g]
  | _ => st

/-- Compress one 16-word block into the running 8-word hash value. -/
def compressBlock (h : List Nat) (block : List Nat) : List Nat :=
  let ws := fullSchedule block
  let st := (shaK.zip ws).foldl compressStep h
  (h.zip st).map (fun p => (p.1 + p.2) % M32)

/-- SHA-256 of a byte list, as the list of the 8 final 32-bit words. -/
def sha256Words (msg : List Nat) : List Nat :=
  (toBlocks (bytesToWords (padMessage msg))).foldl compressBlock shaH0

/-- Lowercase hexadecimal digit. -/
def hexDigit (n : Nat) : Char :=
  if n < 10 then Char.ofNat (48 + n) else Char.ofNat (87 + n)

/-- A 32-bit word as exactly 8 lowercase hex characters (`format!("{:x}")`
on the digest pads each byte to two digits). -/
def hex8 (n : Nat) : List Char :=
  [hexDigit ((n >>> 28) % 16), hexDigit ((n >>> 24) % 16),
   hexDigit ((n >>> 20) % 16), hexDigit ((n >>> 16) % 16),
   hexDigit ((n >>> 12) % 16), hexDigit ((n >>> 8) % 16),
   hexDigit ((n >>> 4) % 16), hexDigit (n % 16)]

/-- UTF-8 bytes of one character. -/
def utf8Bytes (c : Char) : List Nat :=
  let n := c.toNat
  if n < 0x80 then [n]
  else if n < 0x800 then
    [0xc0 ||| (n >>> 6), 0x80 ||| (n &&& 0x3f)]
  else if n < 0x10000 then
    [0xe0 ||| (n >>> 12), 0x80 ||| ((n >>> 6) &&& 0x3f), 0x80 ||| (n &&& 0x3f)]
  else
    [0xf0 ||| (n >>> 18), 0x80 ||| ((n >>> 12) &&& 0x3f),
     0x80 ||| ((n >>> 6) &&& 0x3f), 0x80 ||| (n &&& 0x3f)]

/-- UTF-8 bytes of a string (`str::as_bytes`). -/
def strBytes (s : String) : List Nat :=
  (s.data.map utf8Bytes).flatten

/-- SHA-256 of a string's UTF-8 bytes, rendered as the 64-character
lowercase hex string `format!("{:x}", hasher.finalize())` produces. -/
def sha256hex (msg : List Nat) : String :=
  String.mk ((sha256Words msg).map hex8).flatten

/-! ## Data model -/

/-- Rust alias `pub type Sha = String;`. -/
abbrev Sha := String

deriving instance DecidableEq for Except

/-- Modelled from the spec: `crate::project::Plane` is not part of the given
unit; the spec treats it as an opaque external payload that only needs "a
stable textual and byte representation for hashing and printing" (it is
consumed via `format!("{plane:?}")` only).  We model it by that stable
`Debug` rendering. -/
structure Plane where
  debugRepr : String
deriving DecidableEq

/-- A Rust `f64` value, modelled by its `Display` rendering (the exact text
`format!("{x}")` produces); the code only ever formats these values, never
computes with them, so the rendering is a faithful carrier. -/
structure F64 where
  repr : String
deriving DecidableEq

/-- Rust `Debug` escaping of one character inside a quoted string. -/
def escapeChar (c : Char) : List Char :=
  if c = '"' then ['\\', '"']
  else if c = '\\' then ['\\', '\\']
  else if c = '\n' then ['\\', 'n']
  else if c = '\t' then ['\\', 't']
  else if c = '\r' then ['\\', 'r']
  else [c]

/-- Rust `format!("{s:?}")` on a string: quoted and escaped. -/
def debugStr (s : String) : String :=
  "\"" ++ String.mk (s.data.map escapeChar).flatten ++ "\""

/-- The `Operation` enum (`mod.rs` lines 135-178). -/
inductive Operation where
  | Create (nonce : String)
  | Describe (description : String) (commit : Sha)
  | NewPlane (name : String) (plane : Plane)
  | NewSketch (name : String) (plane_name : String) (unique_id : String)
  | NewRectangle (sketch_id : String) (x y width height : F64)
  | NewCircle (sketch_id : String) (x y radius : F64)
  | NewExtrusion (name unique_id sketch_id : String) (click_x click_y depth : F64)
  | ModifyExtrusionDepth (unique_id : String) (depth : F64)
deriving DecidableEq

/-- The per-variant formatted text fed to the hasher after the salt, exactly
the `format!` strings of `Operation::hash` (note `{plane_name:?}` uses the
`Debug` rendering of the string, with quotes). -/
def Operation.hashInput : Operation → String
  | .Create nonce => nonce
  | .Describe description commit => description ++ "-" ++ commit
  | .NewPlane name plane => name ++ "-" ++ plane.debugRepr
  | .NewSketch name plane_name unique_id =>
      name ++ "-" ++ debugStr plane_name ++ "-" ++ unique_id
  | .NewRectangle sketch_id x y width height =>
      sketch_id ++ "-" ++ x.repr ++ "-" ++ y.repr ++ "-" ++ width.repr ++ "-" ++ height.repr
  | .NewCircle sketch_id x y radius =>
      sketch_id ++ "-" ++ x.repr ++ "-" ++ y.repr ++ "-" ++ radius.repr
  | .NewExtrusion name unique_id sketch_id click_x click_y depth =>
      name ++ "-" ++ unique_id ++ "-" ++ sketch_id ++ "-" ++
        click_x.repr ++ "-" ++ click_y.repr ++ "-" ++ depth.repr
  | .ModifyExtrusionDepth unique_id depth => unique_id ++ "-" ++ depth.repr

/-- The full byte string digested by `Operation::hash`: the salt update
`hasher.update("cadmium".as_bytes())` followed by the variant's bytes. -/
def Operation.hashBytes (op : Operation) : List Nat :=
  strBytes "cadmium" ++ strBytes op.hashInput

/-- Rust `Operation::hash` (`mod.rs` lines 181-228). -/
def Operation.hash (op : Operation) : Sha :=
  sha256hex op.hashBytes

/-- Rust `Operation::pretty_print` (`mod.rs` lines 230-279). -/
def Operation.pretty_print : Operation → String
  | .Create nonce => "Create: " ++ nonce
  | .Describe description commit => "Describe: " ++ commit ++ " '" ++ description ++ "'"
  | .NewPlane name _ => "NewPlane: '" ++ name ++ "'"
  | .NewSketch name plane_name _ =>
      "NewSketch: '" ++ name ++ "' on plane '" ++ plane_name ++ "'"
  | .NewRectangle sketch_id x y width height =>
      "NewRectangle: " ++ x.repr ++ " " ++ y.repr ++ " " ++ width.repr ++ " " ++
        height.repr ++ " on '" ++ sketch_id ++ "'"
  | .NewCircle sketch_id x y radius =>
      "NewCircle: (" ++ x.repr ++ "," ++ y.repr ++ ") radius: " ++ radius.repr ++
        " on '" ++ sketch_id ++ "'"
  | .NewExtrusion name _ sketch_id click_x click_y depth =>
      "NewExtrusion: '" ++ name ++ "' on '" ++ sketch_id ++ "' (" ++ click_x.repr ++
        "," ++ click_y.repr ++ ") depth: " ++ depth.repr
  | .ModifyExtrusionDepth unique_id depth =>
      "ModifyExtrusionDepth: " ++ unique_id ++ " to " ++ depth.repr

/-- The pre-hash text of a commit id, `format!("{h}-{parent}")` where `h`
is the operation's content hash. -/
def idPreimage (operation : Operation) (parent : Sha) : String :=
  operation.hash ++ "-" ++ parent

/-- Rust `id_from_op_and_parent` (`mod.rs` lines 48-53): the SHA-256 of
`format!("{h}-{parent}")` where `h` is the operation's hash. -/
def id_from_op_and_parent (operation : Operation) (parent : Sha) : Sha :=
  sha256hex (strBytes (idPreimage operation parent))

/-- Rust `Commit` (`mod.rs` lines 105-111). -/
structure Commit where
  operation : Operation
  content_hash : Sha
  parent : Sha
  id : Sha
deriving DecidableEq

/-- Rust `Commit::init` (`mod.rs` lines 114-125). -/
def Commit.init : Commit :=
  let init_op := Operation.Create "Hello World"
  let parent_sha := ""
  { id := id_from_op_and_parent init_op parent_sha
    content_hash := init_op.hash
    operation := init_op
    parent := parent_sha }

/-- Rust `Commit::pretty_print` (`mod.rs` lines 127-130).  The Rust code slices
`&self.id[..10]`, which panics when `id` has fewer than 10 bytes; we model
the partiality with `Option`, `none` standing for the panic.  (All ids the
log produces are ASCII hex, so the byte slice is the 10-character prefix.) -/
def Commit.pretty_print (c : Commit) : Option String :=
  if 10 ≤ c.id.length then
    some (c.id.take 10 ++ ": " ++ c.operation.pretty_print)
  else none

/-- Rust `OpLog` (`mod.rs` lines 8-11). -/
structure OpLog where
  commits : List Commit
deriving DecidableEq

/-- Rust `OpLog::new`. -/
def OpLog.new : OpLog := { commits := [] }

/-- Rust `OpLog::init`: pushes the creation commit. -/
def OpLog.init (l : OpLog) : OpLog :=
  { l with commits := l.commits ++ [Commit.init] }

/-- Rust `OpLog::append` (`mod.rs` lines 23-34): builds the new commit, pushes
it, and returns it alongside the mutated log. -/
def OpLog.append (l : OpLog) (parent : Sha) (operation : Operation) : Commit × OpLog :=
  let op_hash := operation.hash
  let new_commit : Commit :=
    { id := id_from_op_and_parent operation parent
      operation := operation
      content_hash := op_hash
      parent := parent }
  (new_commit, { l with commits := l.commits ++ [new_commit] })

/-- Rust `OpLog::last`. -/
def OpLog.last (l : OpLog) : Option Commit :=
  l.commits.getLast?

/-- Rust `OpLog::get_length`. -/
def OpLog.get_length (l : OpLog) : Nat :=
  l.commits.length

/-- Rust `EvolutionLog` (`mod.rs` lines 55-59). -/
structure EvolutionLog where
  cursor : Sha
  oplog : OpLog
deriving DecidableEq

/-- Rust `EvolutionLog::new` (`mod.rs` lines 62-69).  `ol.last()` is `some` here
(the log was just initialized), mirroring the `.unwrap()`; the `getD`
fallback is dead code. -/
def EvolutionLog.new : EvolutionLog :=
  let ol := OpLog.new.init
  { cursor := (ol.last.getD Commit.init).id, oplog := ol }

/-- Rust `EvolutionLog::append` (`mod.rs` lines 71-74): appends chained from the
cursor, advances the cursor to the new commit's id, returns it.  The pair
is (returned fingerprint, mutated state). -/
def EvolutionLog.append (e : EvolutionLog) (operation : Operation) : Sha × EvolutionLog :=
  let r := e.oplog.append e.cursor operation
  (r.1.id, { cursor := r.1.id, oplog := r.2 })

/-- Rust `EvolutionLog::checkout` (`mod.rs` lines 82-91): the loop sets the
cursor at the first commit whose id matches and returns `Ok`; if none
matches the state is untouched and an error carrying the sha is returned. -/
def EvolutionLog.checkout (e : EvolutionLog) (sha : Sha) : Except String Unit × EvolutionLog :=
  match e.oplog.commits.find? (fun commit => commit.id == sha) with
  | some _ => (Except.ok (), { e with cursor := sha })
  | none => (Except.error ("SHA " ++ sha ++ " not found in oplog"), e)

/-- Rust `EvolutionLog::cherry_pick` (`mod.rs` lines 93-102): the first commit
whose id matches has its operation re-appended at the cursor; if none
matches the state is untouched and an error carrying the sha is returned. -/
def EvolutionLog.cherry_pick (e : EvolutionLog) (sha : Sha) : Except String Unit × EvolutionLog :=
  match e.oplog.commits.find? (fun commit => commit.id == sha) with
  | some commit => (Except.ok (), (e.append commit.operation).2)
  | none => (Except.error ("SHA " ++ sha ++ " not found in oplog"), e)

/-- Rust `EvolutionLog::pretty_print` prints every commit's line in order;
`none` stands for a panic in some `Commit::pretty_print`. -/
def EvolutionLog.pretty_print (e : EvolutionLog) : Option (List String) :=
  e.oplog.commits.mapM Commit.pretty_print

/-! ## Reachable states: the public operation sequences of the spec -/

/-- One public mutating call on an `EvolutionLog`. -/
inductive Cmd where
  | append (op : Operation)
  | checkout (sha : Sha)
  | cherry_pick (sha : Sha)
deriving DecidableEq

/-- The state after one public call (results discarded). -/
def EvolutionLog.exec (e : EvolutionLog) : Cmd → EvolutionLog
  | .append op => (e.append op).2
  | .checkout sha => (e.checkout sha).2
  | .cherry_pick sha => (e.cherry_pick sha).2

/-- The state reached from `EvolutionLog::new` by a sequence of public
calls. -/
def runCmds (cmds : List Cmd) : EvolutionLog :=
  cmds.foldl EvolutionLog.exec EvolutionLog.new

/-! ## Specification predicates -/

/-- The cursor equals the id of some commit present in the oplog. -/
def cursorInLog (e : EvolutionLog) : Prop :=
  ∃ c ∈ e.oplog.commits, c.id = e.cursor

/-- The derived fields of a commit agree with its operation and parent:
the content hash is the operation's hash and the id is the chaining hash
of the content hash and the parent fingerprint. -/
def Commit.Chained (c : Commit) : Prop :=
  c.content_hash = c.operation.hash ∧
  c.id = id_from_op_and_parent c.operation c.parent

/-- The sixteen characters that may appear in a lowercase hex digest. -/
def lowerHexChars : List Char :=
  "0123456789abcdef".data

/-- The commit's id is a 64-character lowercase hexadecimal string. -/
def Commit.IdHex (c : Commit) : Prop :=
  c.id.length = 64 ∧ ∀ ch ∈ c.id.data, ch ∈ lowerHexChars

/-! ## Digest shape lemmas -/

set_option maxRecDepth 100000

example : sha256hex (strBytes "abc") =
    "ba7816bf8f01cfea414140de5dae2223b00361a396177a9cb410ff61f20015ad" := by
  decide

example : sha256hex (strBytes "") =
    "e3b0c44298fc1c149afbf4c8996fb92427ae41e4649b934ca495991b7852b855" := by
  decide

example : (Operation.Create "Hello World").hash =
    "c37bc3fd76bafba0f6d54d70714de83a1d366f0fd86b75204ecbb1badfb17a31" := by
  decide

theorem compressStep_length (st : List Nat) (kw : Nat × Nat) :
    (compressStep st kw).length = st.length := by
  unfold compressStep
  split <;> simp

theorem foldl_compressStep_length (l : List (Nat × Nat)) (st : List Nat) :
    (l.foldl compressStep st).length = st.length := by
  induction l generalizing st with
  | nil => rfl
  | cons a l ih => rw [List.foldl_cons, ih, compressStep_length]

theorem compressBlock_length (h b : List Nat) :
    (compressBlock h b).length = h.length := by
  unfold compressBlock
  simp [foldl_compressStep_length]

theorem foldl_compressBlock_length (bs : List (List Nat)) (h : List Nat) :
    (bs.foldl compressBlock h).length = h.length := by
  induction bs generalizing h with
  | nil => rfl
  | cons b bs ih => rw [List.foldl_cons, ih, compressBlock_length]

theorem sha256Words_length (msg : List Nat) : (sha256Words msg).length = 8 := by
  unfold sha256Words
  rw [foldl_compressBlock_length]
  rfl

theorem hex8_length (n : Nat) : (hex8 n).length = 8 := rfl

theorem flatten_hex8_length (ws : List Nat) :
    ((ws.map hex8).flatten).length = 8 * ws.length := by
  induction ws with
  | nil => rfl
  | cons w ws ih =>
    simp only [List.map_cons, List.flatten_cons, List.length_append, ih,
      hex8_length, List.length_cons]
    omega

theorem sha256hex_length (msg : List Nat) : (sha256hex msg).length = 64 := by
  show (((sha256Words msg).map hex8).flatten).length = 64
  rw [flatten_hex8_length, sha256Words_length]

theorem hexDigit_mem (n : Nat) (h : n < 16) : hexDigit n ∈ lowerHexChars := by
  interval_cases n <;> decide

theorem hex8_chars (n : Nat) (ch : Char) (h : ch ∈ hex8 n) : ch ∈ lowerHexChars := by
  simp only [hex8, List.mem_cons, List.not_mem_nil, or_false] at h
  rcases h with rfl | rfl | rfl | rfl | rfl | rfl | rfl | rfl <;>
    exact hexDigit_mem _ (Nat.mod_lt _ (by norm_num))

theorem sha256hex_chars (msg : List Nat) (ch : Char)
    (h : ch ∈ (sha256hex msg).data) : ch ∈ lowerHexChars := by
  have h2 : ch ∈ ((sha256Words msg).map hex8).flatten := h
  rw [List.mem_flatten] at h2
  obtain ⟨l, hl, hch⟩ := h2
  rw [List.mem_map] at hl
  obtain ⟨w, _, rfl⟩ := hl
  exact hex8_chars w ch hch

/-! ## Shape lemmas for the public operations -/

/-- The commit built by `OpLog::append` from a parent and operation. -/
theorem OpLog.append_eq (l : OpLog) (parent : Sha) (operation : Operation) :
    l.append parent operation =
      ({ id := id_from_op_and_parent operation parent
         operation := operation
         content_hash := operation.hash
         parent := parent },
       { commits := l.commits ++
          [{ id := id_from_op_and_parent operation parent
             operation := operation
             content_hash := operation.hash
             parent := parent }] }) := rfl

theorem new_commits : EvolutionLog.new.oplog.commits = [Commit.init] := rfl

theorem new_cursor : EvolutionLog.new.cursor = Commit.init.id := rfl

theorem append_snd_commits (e : EvolutionLog) (op : Operation) :
    (e.append op).2.oplog.commits = e.oplog.commits ++
      [{ id := id_from_op_and_parent op e.cursor
         operation := op
         content_hash := op.hash
         parent := e.cursor }] := rfl

theorem append_snd_cursor (e : EvolutionLog) (op : Operation) :
    (e.append op).2.cursor = id_from_op_and_parent op e.cursor := rfl

theorem append_fst (e : EvolutionLog) (op : Operation) :
    (e.append op).1 = id_from_op_and_parent op e.cursor := rfl

theorem checkout_found (e : EvolutionLog) (sha : Sha) (c : Commit)
    (h : e.oplog.commits.find? (fun commit => commit.id == sha) = some c) :
    e.checkout sha = (Except.ok (), { e with cursor := sha }) := by
  unfold EvolutionLog.checkout
  rw [h]

theorem checkout_not_found (e : EvolutionLog) (sha : Sha)
    (h : e.oplog.commits.find? (fun commit => commit.id == sha) = none) :
    e.checkout sha = (Except.error ("SHA " ++ sha ++ " not found in oplog"), e) := by
  unfold EvolutionLog.checkout
  rw [h]

theorem cherry_pick_found (e : EvolutionLog) (sha : Sha) (c : Commit)
    (h : e.oplog.commits.find? (fun commit => commit.id == sha) = some c) :
    e.cherry_pick sha = (Except.ok (), (e.append c.operation).2) := by
  unfold EvolutionLog.cherry_pick
  rw [h]

theorem cherry_pick_not_found (e : EvolutionLog) (sha : Sha)
    (h : e.oplog.commits.find? (fun commit => commit.id == sha) = none) :
    e.cherry_pick sha = (Except.error ("SHA " ++ sha ++ " not found in oplog"), e) := by
  unfold EvolutionLog.cherry_pick
  rw [h]

/-- The existence of a commit with a given id is equivalent to `find?`
succeeding on the `==` test the Rust loop performs. -/
theorem exists_id_iff_find?_isSome (e : EvolutionLog) (sha : Sha) :
    (∃ c ∈ e.oplog.commits, c.id = sha) ↔
      (e.oplog.commits.find? (fun commit => commit.id == sha)).isSome := by
  rw [List.find?_isSome]
  constructor
  · rintro ⟨c, hc, rfl⟩
    exact ⟨c, hc, by simp⟩
  · rintro ⟨c, hc, hid⟩
    exact ⟨c, hc, by simpa using hid⟩

/-! ## The cursor invariant (C1) -/

theorem cursorInLog_new : cursorInLog EvolutionLog.new :=
  ⟨Commit.init, by rw [new_commits]; exact List.mem_singleton.mpr rfl, rfl⟩

theorem cursorInLog_append (e : EvolutionLog) (op : Operation) :
    cursorInLog (e.append op).2 := by
  refine ⟨_, ?_, rfl⟩
  rw [append_snd_commits]
  exact List.mem_append_right _ (List.mem_singleton.mpr rfl)

theorem cursorInLog_exec (e : EvolutionLog) (cmd : Cmd) (h : cursorInLog e) :
    cursorInLog (e.exec cmd) := by
  cases cmd with
  | append op => exact cursorInLog_append e op
  | checkout sha =>
    show cursorInLog (e.checkout sha).2
    cases hf : e.oplog.commits.find? (fun commit => commit.id == sha) with
    | none => rw [checkout_not_found e sha hf]; exact h
    | some c =>
      rw [checkout_found e sha c hf]
      exact ⟨c, List.mem_of_find?_eq_some hf, by simpa using List.find?_some hf⟩
  | cherry_pick sha =>
    show cursorInLog (e.cherry_pick sha).2
    cases hf : e.oplog.commits.find? (fun commit => commit.id == sha) with
    | none => rw [cherry_pick_not_found e sha hf]; exact h
    | some c =>
      rw [cherry_pick_found e sha c hf]
      exact cursorInLog_append e c.operation

theorem cursorInLog_foldl (cmds : List Cmd) (e : EvolutionLog) (h : cursorInLog e) :
    cursorInLog (cmds.foldl EvolutionLog.exec e) := by
  induction cmds generalizing e with
  | nil => exact h
  | cons cmd cmds ih => exact ih _ (cursorInLog_exec e cmd h)

/-- C1: for every `EvolutionLog` constructed by `EvolutionLog::new` and
evolved by any sequence of the public operations `append`, `checkout` and
`cherry_pick`, the `cursor` field equals the id of some commit present in
the oplog — after every call, hence also before every call (the state
before a call is the state after the preceding prefix), including calls of
`checkout` or `cherry_pick` that return an error (those leave the state
unchanged, which the step lemmas above cover). -/
theorem C1_cursor_always_in_oplog (cmds : List Cmd) :
    cursorInLog (runCmds cmds) :=
  cursorInLog_foldl cmds EvolutionLog.new cursorInLog_new

/-! ## Append (C2) and construction (C9) -/

/-- C2: after `append(op)` the oplog's length is exactly one greater than
before, the newly appended tail commit's parent equals the pre-call
cursor, and the returned fingerprint equals both the new commit's id and
the post-call cursor. -/
theorem C2_append_chain_preserving (e : EvolutionLog) (op : Operation) :
    (e.append op).2.oplog.get_length = e.oplog.get_length + 1 ∧
    ∃ c : Commit,
      (e.append op).2.oplog.commits = e.oplog.commits ++ [c] ∧
      (e.append op).2.oplog.commits.getLast? = some c ∧
      c.parent = e.cursor ∧
      (e.append op).1 = c.id ∧
      (e.append op).2.cursor = c.id := by
  constructor
  · show (e.oplog.commits ++ [_]).length = e.oplog.commits.length + 1
    simp
  · exact ⟨_, rfl, by rw [append_snd_commits]; exact List.getLast?_concat _, rfl, rfl, rfl⟩

/-- C9: `EvolutionLog::new()` constructs a log whose oplog contains exactly
one commit; that commit's operation is the `Create` variant (with the fixed
nonce), its parent is the empty string, and the cursor equals its id. -/
theorem C9_new_state :
    EvolutionLog.new.oplog.get_length = 1 ∧
    EvolutionLog.new.oplog.commits = [Commit.init] ∧
    Commit.init.operation = Operation.Create "Hello World" ∧
    Commit.init.parent = "" ∧
    EvolutionLog.new.cursor = Commit.init.id :=
  ⟨rfl, rfl, rfl, rfl, rfl⟩

/-! ## Checkout (C3) and cherry-pick (C4) -/

/-- C3: if some commit in the oplog has id `sha`, `checkout(sha)` succeeds
and sets the cursor to exactly `sha` leaving the oplog unchanged; if no
commit has that id, it returns the not-found error carrying the offending
fingerprint and leaves both cursor and oplog unchanged. -/
theorem C3_checkout_spec (e : EvolutionLog) (sha : Sha) :
    ((∃ c ∈ e.oplog.commits, c.id = sha) →
      e.checkout sha = (Except.ok (), { e with cursor := sha })) ∧
    ((¬ ∃ c ∈ e.oplog.commits, c.id = sha) →
      e.checkout sha = (Except.error ("SHA " ++ sha ++ " not found in oplog"), e)) := by
  constructor
  · intro hex
    rw [exists_id_iff_find?_isSome] at hex
    obtain ⟨c, hc⟩ := Option.isSome_iff_exists.mp hex
    exact checkout_found e sha c hc
  · intro hne
    rw [exists_id_iff_find?_isSome] at hne
    exact checkout_not_found e sha (Option.not_isSome_iff_eq_none.mp hne)

/-- Witness for C3: on the fresh log, checking out the root id succeeds and
checking out an absent fingerprint fails with the message, each via
`C3_checkout_spec`. -/
theorem C3_checkout_spec_witness :
    ((∃ c ∈ EvolutionLog.new.oplog.commits, c.id = EvolutionLog.new.cursor) ∧
      EvolutionLog.new.checkout EvolutionLog.new.cursor =
        (Except.ok (), { EvolutionLog.new with cursor := EvolutionLog.new.cursor })) ∧
    ((¬ ∃ c ∈ EvolutionLog.new.oplog.commits, c.id = "deadbeef") ∧
      EvolutionLog.new.checkout "deadbeef" =
        (Except.error ("SHA " ++ "deadbeef" ++ " not found in oplog"), EvolutionLog.new)) := by
  have hex1 : ∃ c ∈ EvolutionLog.new.oplog.commits, c.id = EvolutionLog.new.cursor := by
    refine ⟨Commit.init, ?_, rfl⟩
    show Commit.init ∈ [Commit.init]
    exact List.mem_singleton.mpr rfl
  have hex2 : ¬ ∃ c ∈ EvolutionLog.new.oplog.commits, c.id = "deadbeef" := by decide
  exact ⟨⟨hex1, (C3_checkout_spec _ _).1 hex1⟩, ⟨hex2, (C3_checkout_spec _ _).2 hex2⟩⟩

/-- C4: if the scan finds a commit with id `sha` (the first such, which is
what the Rust loop replays), `cherry_pick(sha)` succeeds, grows the oplog
by exactly one, and the newly appended commit carries an operation equal by
value to the found commit's operation with the pre-call cursor as parent;
if no commit has that id, it returns the not-found error carrying the
offending fingerprint and leaves the state unchanged. -/
theorem C4_cherry_pick_spec (e : EvolutionLog) (sha : Sha) :
    (∀ c : Commit,
      e.oplog.commits.find? (fun commit => commit.id == sha) = some c →
      (e.cherry_pick sha).1 = Except.ok () ∧
      (e.cherry_pick sha).2.oplog.get_length = e.oplog.get_length + 1 ∧
      ∃ c2 : Commit,
        (e.cherry_pick sha).2.oplog.commits = e.oplog.commits ++ [c2] ∧
        c2.operation = c.operation ∧
        c2.parent = e.cursor) ∧
    ((¬ ∃ c ∈ e.oplog.commits, c.id = sha) →
      e.cherry_pick sha = (Except.error ("SHA " ++ sha ++ " not found in oplog"), e)) := by
  constructor
  · intro c hc
    rw [cherry_pick_found e sha c hc]
    refine ⟨rfl, ?_, _, rfl, rfl, rfl⟩
    show (e.oplog.commits ++ [_]).length = e.oplog.commits.length + 1
    simp
  · intro hne
    rw [exists_id_iff_find?_isSome] at hne
    exact cherry_pick_not_found e sha (Option.not_isSome_iff_eq_none.mp hne)

/-- Witness for C4: on the fresh log, cherry-picking the root id succeeds
and grows the log, and cherry-picking an absent fingerprint fails with the
message, each via `C4_cherry_pick_spec`. -/
theorem C4_cherry_pick_spec_witness :
    (EvolutionLog.new.oplog.commits.find?
        (fun commit => commit.id == EvolutionLog.new.cursor) = some Commit.init) ∧
    (EvolutionLog.new.cherry_pick EvolutionLog.new.cursor).1 = Except.ok () ∧
    (EvolutionLog.new.cherry_pick EvolutionLog.new.cursor).2.oplog.get_length =
      EvolutionLog.new.oplog.get_length + 1 ∧
    (¬ ∃ c ∈ EvolutionLog.new.oplog.commits, c.id = "deadbeef") ∧
    EvolutionLog.new.cherry_pick "deadbeef" =
      (Except.error ("SHA " ++ "deadbeef" ++ " not found in oplog"), EvolutionLog.new) := by
  have h1 : EvolutionLog.new.oplog.commits.find?
      (fun commit => commit.id == EvolutionLog.new.cursor) = some Commit.init := by decide
  have h2 : ¬ ∃ c ∈ EvolutionLog.new.oplog.commits, c.id = "deadbeef" := by decide
  exact ⟨h1, ((C4_cherry_pick_spec _ _).1 Commit.init h1).1,
    ((C4_cherry_pick_spec _ _).1 Commit.init h1).2.1,
    h2, (C4_cherry_pick_spec _ _).2 h2⟩

/-! ## The commit hash invariant (C6) -/

theorem chained_init : Commit.init.Chained := ⟨rfl, rfl⟩

theorem chained_append (e : EvolutionLog) (op : Operation) (c : Commit)
    (hc : c ∈ (e.append op).2.oplog.commits)
    (h : ∀ c ∈ e.oplog.commits, c.Chained) : c.Chained := by
  rw [append_snd_commits] at hc
  rcases List.mem_append.mp hc with h1 | h1
  · exact h c h1
  · rw [List.mem_singleton] at h1
    subst h1
    exact ⟨rfl, rfl⟩

theorem chained_exec (e : EvolutionLog) (cmd : Cmd)
    (h : ∀ c ∈ e.oplog.commits, c.Chained) :
    ∀ c ∈ (e.exec cmd).oplog.commits, c.Chained := by
  cases cmd with
  | append op => exact fun c hc => chained_append e op c hc h
  | checkout sha =>
    intro c hc
    revert hc
    show c ∈ (e.checkout sha).2.oplog.commits → c.Chained
    cases hf : e.oplog.commits.find? (fun commit => commit.id == sha) with
    | none => rw [checkout_not_found e sha hf]; exact h c
    | some c1 => rw [checkout_found e sha c1 hf]; exact h c
  | cherry_pick sha =>
    intro c hc
    revert hc
    show c ∈ (e.cherry_pick sha).2.oplog.commits → c.Chained
    cases hf : e.oplog.commits.find? (fun commit => commit.id == sha) with
    | none => rw [cherry_pick_not_found e sha hf]; exact h c
    | some c1 =>
      rw [cherry_pick_found e sha c1 hf]
      exact fun hc => chained_append e c1.operation c hc h

theorem chained_foldl (cmds : List Cmd) (e : EvolutionLog)
    (h : ∀ c ∈ e.oplog.commits, c.Chained) :
    ∀ c ∈ (cmds.foldl EvolutionLog.exec e).oplog.commits, c.Chained := by
  induction cmds generalizing e with
  | nil => exact h
  | cons cmd cmds ih => exact ih _ (chained_exec e cmd h)

theorem chained_new : ∀ c ∈ EvolutionLog.new.oplog.commits, c.Chained := by
  intro c hc
  rw [new_commits, List.mem_singleton] at hc
  subst hc
  exact chained_init

/-- C6: every commit ever present in a reachable oplog (the root created by
`Commit::init` and every commit added by `OpLog::append`) has
`content_hash` equal to the hash of its operation, and `id` equal to the
digest of the operation's hash concatenated with the fixed `"-"` separator
and the commit's parent fingerprint. -/
theorem C6_commit_hash_invariant (cmds : List Cmd) (c : Commit)
    (hc : c ∈ (runCmds cmds).oplog.commits) :
    c.content_hash = c.operation.hash ∧
    c.id = sha256hex (strBytes (c.operation.hash ++ "-" ++ c.parent)) :=
  chained_foldl cmds EvolutionLog.new chained_new c hc

/-- Witness for C6: the root commit of the fresh log, via
`C6_commit_hash_invariant` at the empty call sequence. -/
theorem C6_commit_hash_invariant_witness :
    Commit.init ∈ (runCmds []).oplog.commits ∧
    Commit.init.content_hash = Commit.init.operation.hash ∧
    Commit.init.id =
      sha256hex (strBytes (Commit.init.operation.hash ++ "-" ++ Commit.init.parent)) := by
  have hm : Commit.init ∈ (runCmds []).oplog.commits := by
    show Commit.init ∈ [Commit.init]
    exact List.mem_singleton.mpr rfl
  exact ⟨hm, C6_commit_hash_invariant [] Commit.init hm⟩

/-! ## Id shape and pretty-printing safety (C10) -/

theorem idHex_init : Commit.init.IdHex :=
  ⟨sha256hex_length _, fun ch hch => sha256hex_chars _ ch hch⟩

theorem idHex_append (e : EvolutionLog) (op : Operation) (c : Commit)
    (hc : c ∈ (e.append op).2.oplog.commits)
    (h : ∀ c ∈ e.oplog.commits, c.IdHex) : c.IdHex := by
  rw [append_snd_commits] at hc
  rcases List.mem_append.mp hc with h1 | h1
  · exact h c h1
  · rw [List.mem_singleton] at h1
    subst h1
    exact ⟨sha256hex_length _, fun ch hch => sha256hex_chars _ ch hch⟩

theorem idHex_exec (e : EvolutionLog) (cmd : Cmd)
    (h : ∀ c ∈ e.oplog.commits, c.IdHex) :
    ∀ c ∈ (e.exec cmd).oplog.commits, c.IdHex := by
  cases cmd with
  | append op => exact fun c hc => idHex_append e op c hc h
  | checkout sha =>
    intro c hc
    revert hc
    show c ∈ (e.checkout sha).2.oplog.commits → c.IdHex
    cases hf : e.oplog.commits.find? (fun commit => commit.id == sha) with
    | none => rw [checkout_not_found e sha hf]; exact h c
    | some c1 => rw [checkout_found e sha c1 hf]; exact h c
  | cherry_pick sha =>
    intro c hc
    revert hc
    show c ∈ (e.cherry_pick sha).2.oplog.commits → c.IdHex
    cases hf : e.oplog.commits.find? (fun commit => commit.id == sha) with
    | none => rw [cherry_pick_not_found e sha hf]; exact h c
    | some c1 =>
      rw [cherry_pick_found e sha c1 hf]
      exact fun hc => idHex_append e c1.operation c hc h

theorem idHex_foldl (cmds : List Cmd) (e : EvolutionLog)
    (h : ∀ c ∈ e.oplog.commits, c.IdHex) :
    ∀ c ∈ (cmds.foldl EvolutionLog.exec e).oplog.commits, c.IdHex := by
  induction cmds generalizing e with
  | nil => exact h
  | cons cmd cmds ih => exact ih _ (idHex_exec e cmd h)

theorem idHex_new : ∀ c ∈ EvolutionLog.new.oplog.commits, c.IdHex := by
  intro c hc
  rw [new_commits, List.mem_singleton] at hc
  subst hc
  exact idHex_init

theorem pretty_print_isSome_of_idHex (c : Commit) (h : c.IdHex) :
    (c.pretty_print).isSome = true := by
  have h10 : 10 ≤ c.id.length := by rw [h.1]; norm_num
  simp [Commit.pretty_print, h10]

theorem mapM_isSome {α β : Type} (f : α → Option β) (l : List α)
    (h : ∀ a ∈ l, (f a).isSome = true) : (l.mapM f).isSome = true := by
  induction l with
  | nil => rfl
  | cons a l ih =>
    obtain ⟨b, hb⟩ := Option.isSome_iff_exists.mp (h a (List.mem_cons_self a l))
    obtain ⟨bs, hbs⟩ :=
      Option.isSome_iff_exists.mp (ih fun x hx => h x (List.mem_cons_of_mem a hx))
    rw [List.mapM_cons, hb, hbs]
    rfl

/-- C10: for every commit reachable through the public `EvolutionLog`
operations, the id is a 64-character lowercase hexadecimal digest, so the
`&self.id[..10]` slice of `Commit::pretty_print` is in bounds (modelled by
`Option`: the result is `some`, never the `none` that stands for the
panic), and `EvolutionLog::pretty_print` prints every commit without
panicking. -/
theorem C10_pretty_print_total (cmds : List Cmd) :
    (∀ c ∈ (runCmds cmds).oplog.commits,
      c.id.length = 64 ∧ (∀ ch ∈ c.id.data, ch ∈ lowerHexChars) ∧
      (c.pretty_print).isSome = true) ∧
    ((runCmds cmds).pretty_print).isSome = true := by
  have hx : ∀ c ∈ (runCmds cmds).oplog.commits, c.IdHex :=
    idHex_foldl cmds EvolutionLog.new idHex_new
  constructor
  · intro c hc
    obtain ⟨h1, h2⟩ := hx c hc
    exact ⟨h1, h2, pretty_print_isSome_of_idHex c ⟨h1, h2⟩⟩
  · exact mapM_isSome _ _ fun c hc => pretty_print_isSome_of_idHex c (hx c hc)

/-- Witness for C10: the root commit of the fresh log, via
`C10_pretty_print_total` at the empty call sequence. -/
theorem C10_pretty_print_total_witness :
    Commit.init ∈ (runCmds []).oplog.commits ∧
    Commit.init.id.length = 64 ∧
    (Commit.init.pretty_print).isSome = true := by
  have hm : Commit.init ∈ (runCmds []).oplog.commits := by
    show Commit.init ∈ [Commit.init]
    exact List.mem_singleton.mpr rfl
  have h := (C10_pretty_print_total []).1 Commit.init hm
  exact ⟨hm, h.1, h.2.2⟩

/-! ## Cherry-pick id reuse (C5) -/

/-- Counterexample to C5: append one operation (commit X, parent = root),
check out the root, then cherry-pick X's id.  The cherry-pick succeeds and
appends a third commit — yet that new commit's id EQUALS the source
commit's id, because the replay hashes the same operation hash and the
same parent (the cursor equals X's parent after the checkout).  The claim
asserts the new id always differs from the source id. -/
theorem C5_counterexample :
    ((((EvolutionLog.new.append (Operation.Describe "d" "c")).2.checkout EvolutionLog.new.cursor).2).cherry_pick (EvolutionLog.new.append (Operation.Describe "d" "c")).1).1 = Except.ok () ∧
    ((((EvolutionLog.new.append (Operation.Describe "d" "c")).2.checkout EvolutionLog.new.cursor).2).cherry_pick (EvolutionLog.new.append (Operation.Describe "d" "c")).1).2.oplog.get_length = 3 ∧
    ((((EvolutionLog.new.append (Operation.Describe "d" "c")).2.checkout EvolutionLog.new.cursor).2).cherry_pick (EvolutionLog.new.append (Operation.Describe "d" "c")).1).2.oplog.commits.getLast?.map Commit.id = some (EvolutionLog.new.append (Operation.Describe "d" "c")).1 := by
  decide

theorem idPreimage_parent_inj (op : Operation) (p1 p2 : Sha)
    (h : idPreimage op p1 = idPreimage op p2) : p1 = p2 := by
  unfold idPreimage at h
  have hd := congrArg String.data h
  rw [String.data_append, String.data_append] at hd
  have h2 := List.append_cancel_left hd
  exact String.ext h2

/-- C5 amended: on a successful cherry-pick of the commit `c` found for
`source`, the new commit's id is the chaining hash of `c`'s operation and
the pre-call cursor; the byte string hashed for that id differs from the
byte string hashed for `c`'s own id exactly when the pre-call cursor
differs from `c.parent` — in particular, when the cursor equals `c.parent`
(as after checking out `c`'s parent) the new commit's id equals the source
commit's id, and when they differ the two digests only differ up to
SHA-256 collision resistance (which the code does not establish). -/
theorem C5_amended_cherry_pick_id (e : EvolutionLog) (sha : Sha) (c : Commit)
    (hc : e.oplog.commits.find? (fun commit => commit.id == sha) = some c) :
    ∃ c2 : Commit,
      (e.cherry_pick sha).2.oplog.commits = e.oplog.commits ++ [c2] ∧
      c2.id = id_from_op_and_parent c.operation e.cursor ∧
      (idPreimage c.operation e.cursor = idPreimage c.operation c.parent ↔
        e.cursor = c.parent) ∧
      (e.cursor = c.parent →
        c.id = id_from_op_and_parent c.operation c.parent →
        c2.id = c.id) := by
  rw [cherry_pick_found e sha c hc]
  refine ⟨_, rfl, rfl, ?_, ?_⟩
  · constructor
    · exact idPreimage_parent_inj c.operation e.cursor c.parent
    · intro h; rw [h]
  · intro h1 h2
    show id_from_op_and_parent c.operation e.cursor = c.id
    rw [h1, h2]

/-- Witness for C5's amended statement: cherry-picking the root of the
fresh log, via `C5_amended_cherry_pick_id`. -/
theorem C5_amended_cherry_pick_id_witness :
    (EvolutionLog.new.oplog.commits.find?
        (fun commit => commit.id == EvolutionLog.new.cursor) = some Commit.init) ∧
    ∃ c2 : Commit,
      (EvolutionLog.new.cherry_pick EvolutionLog.new.cursor).2.oplog.commits =
        EvolutionLog.new.oplog.commits ++ [c2] ∧
      c2.id = id_from_op_and_parent Commit.init.operation EvolutionLog.new.cursor ∧
      (idPreimage Commit.init.operation EvolutionLog.new.cursor =
          idPreimage Commit.init.operation Commit.init.parent ↔
        EvolutionLog.new.cursor = Commit.init.parent) ∧
      (EvolutionLog.new.cursor = Commit.init.parent →
        Commit.init.id = id_from_op_and_parent Commit.init.operation Commit.init.parent →
        c2.id = Commit.init.id) := by
  have h1 : EvolutionLog.new.oplog.commits.find?
      (fun commit => commit.id == EvolutionLog.new.cursor) = some Commit.init := by decide
  exact ⟨h1, C5_amended_cherry_pick_id _ _ Commit.init h1⟩

/-! ## Hash encoding (C7) and hash determinism (C8) -/

/-- C7: the pre-hash encoding of `Operation::hash` is NOT injective — the
plain `"-"` joining allows value-boundary collisions, so semantically
distinct operations (within a variant, and even across variants) can feed
identical byte strings to the digest, and their content hashes then
collide.  Exhibited at `Describe{"a-b","c"}` vs `Describe{"a","b-c"}`
(same variant) and `Create{"a-b"}` vs `Describe{"a","b"}` (different
variants), all encoding to the bytes of `"cadmiuma-b-c"` resp.
`"cadmiuma-b"`. -/
theorem C7_encoding_collision :
    (Operation.Describe "a-b" "c" ≠ Operation.Describe "a" "b-c" ∧
      (Operation.Describe "a-b" "c").hashBytes = (Operation.Describe "a" "b-c").hashBytes ∧
      (Operation.Describe "a-b" "c").hash = (Operation.Describe "a" "b-c").hash) ∧
    (Operation.Create "a-b" ≠ Operation.Describe "a" "b" ∧
      (Operation.Create "a-b").hashBytes = (Operation.Describe "a" "b").hashBytes ∧
      (Operation.Create "a-b").hash = (Operation.Describe "a" "b").hash) := by
  decide

/-- C8: `Operation::hash` is deterministic — it is a pure function of the
operation value: structurally equal operations hash identically (repeated
calls being the reflexive case), and operations with equal canonical byte
encodings hash identically. -/
theorem C8_hash_deterministic (op1 op2 : Operation) :
    (op1 = op2 → op1.hash = op2.hash) ∧
    (op1.hashBytes = op2.hashBytes → op1.hash = op2.hash) := by
  constructor
  · intro h
    rw [h]
  · intro h
    unfold Operation.hash
    rw [h]

/-- Witness for C8 at the root operation. -/
theorem C8_hash_deterministic_witness :
    Operation.Create "Hello World" = Operation.Create "Hello World" ∧
    (Operation.Create "Hello World").hash = (Operation.Create "Hello World").hash :=
  ⟨rfl, (C8_hash_deterministic _ _).1 rfl⟩

end Cadmium
